import Mathlib

/-!
Shallow embedding of the HelloGitHub notification scripts
(`script/notify_feishu.py` and `script/daily_history.py`) and proofs of the
specification claims about them.

Strings are modelled as `List Char` (`Str`).  The Python strip method is
modelled over the ASCII whitespace characters recognised by
`Char.isWhitespace`; the Python digit class and int conversion are modelled over ASCII
digits.  Network and filesystem effects are modelled as explicit oracle
parameters (an upload function, a webhook sink, a path-existence predicate).
-/

set_option maxHeartbeats 1000000
set_option maxRecDepth 100000

abbrev Str := List Char

/-- Python strip helpers: drop whitespace from the left / right. -/
def pyWs (c : Char) : Bool := c.isWhitespace

def lstrip (l : Str) : Str := l.dropWhile pyWs

def rstrip (l : Str) : Str := (l.reverse.dropWhile pyWs).reverse

def pyStrip (l : Str) : Str := lstrip (rstrip l)

/-- Python split on the newline character: split at every newline, keeping
empty parts. -/
def splitNl : Str → List Str
  | [] => [[]]
  | c :: rest =>
    if c = '\n' then [] :: splitNl rest
    else
      match splitNl rest with
      | l :: ls => (c :: l) :: ls
      | [] => [[c]]

namespace NotifyFeishu

/-- Items produced by `parse_markdown`: dicts whose type tag is project or image. -/
inductive Item where
  | project (name url desc : Str)
  | image (url : Str)
deriving DecidableEq

/-- A parsed category: a dict with a title string and an item list. -/
structure Category where
  title : Str
  items : List Item
deriving DecidableEq

/-- Parser state: the closed categories so far and the currently open one. -/
structure PState where
  categories : List Category
  current : Option Category
deriving DecidableEq

/-- Lazy part of the item regex after the closing `)` of the url:
`\)(?:：|:)(.*)` tried at the current position. -/
def urlEndHere (c : Char) (rest : Str) : Option Str :=
  if c = ')' then
    match rest with
    | c2 :: r2 => if c2 = '：' ∨ c2 = ':' then some r2 else none
    | [] => none
  else none

/-- Lazy `(.*?)\)(?:：|:)(.*)` of the item regex: the shortest url group such
that a `)` followed by a colon comes next; on failure the candidate `)` is
absorbed into the group and scanning continues (regex backtracking). -/
def matchUrlDesc : Str → Option (Str × Str)
  | [] => none
  | c :: rest =>
    match urlEndHere c rest with
    | some d => some ([], d)
    | none =>
      match matchUrlDesc rest with
      | some (u, d) => some (c :: u, d)
      | none => none

/-- End-of-name test of the item regex: `\]\(` followed by a matching url part. -/
def nameEndHere (c : Char) (rest : Str) : Option (Str × Str) :=
  if c = ']' then
    match rest with
    | c2 :: r2 => if c2 = '(' then matchUrlDesc r2 else none
    | [] => none
  else none

/-- Lazy `(.*?)\]\(...` of the item regex: shortest name group whose
continuation matches; otherwise the character joins the name group. -/
def matchNameRest : Str → Option (Str × Str × Str)
  | [] => none
  | c :: rest =>
    match nameEndHere c rest with
    | some (u, d) => some ([], u, d)
    | none =>
      match matchNameRest rest with
      | some (n, u, d) => some (c :: n, u, d)
      | none => none

/-- The item regex `^\d+、\[(.*?)\]\((.*?)\)(?:：|:)(.*)` applied with
`re.match` (anchored at the start of the line). -/
def itemMatch (line : Str) : Option (Str × Str × Str) :=
  let ds := line.takeWhile Char.isDigit
  let rest := line.dropWhile Char.isDigit
  match ds, rest with
  | [], _ => none
  | _ :: _, '、' :: '[' :: r2 => matchNameRest r2
  | _ :: _, _ => none

/-- Single-quote and double-quote characters (written via code points). -/
def quoteS : Char := Char.ofNat 39

def quoteD : Char := Char.ofNat 34

def isQuote (c : Char) : Bool := c = quoteS ∨ c = quoteD

/-- Tail `[^>]*>` of the HTML image regex matches some prefix of `rest`
exactly when `rest` contains a `>`. -/
def tailGtOK (rest : Str) : Bool := rest.contains '>'

/-- Lazy group of the HTML image regex, ended by a quote and followed by the
non-gt run and the closing angle bracket: shortest group whose continuation
matches. -/
def lazySrcGroup : Str → Option Str
  | [] => none
  | c :: rest =>
    if isQuote c && tailGtOK rest then some []
    else
      match lazySrcGroup rest with
      | some g => some (c :: g)
      | none => none

/-- Attempt of the HTML image regex at a fixed gap split: `src=` then a quote
then the lazy group. -/
def srcTryHere (rest : Str) : Option Str :=
  if ("src=".data).isPrefixOf rest then
    match rest.drop 4 with
    | q :: r2 => if isQuote q then lazySrcGroup r2 else none
    | [] => none
  else none

/-- Greedy `[^>]*` between `<img` and `src=` with backtracking: the longest
gap is tried first (the first argument is the reversed remaining gap). -/
def srcBack : Str → Str → Option Str
  | [], rest => srcTryHere rest
  | c :: gr, rest =>
    match srcTryHere rest with
    | some g => some g
    | none => srcBack gr (c :: rest)

/-- The HTML image regex (img tag, gap, src=, quoted lazy group, closing
angle bracket) tried at the start of `l`, returning group 1. -/
def htmlImgAt (l : Str) : Option Str :=
  if ("<img".data).isPrefixOf l then
    let r := l.drop 4
    let run := r.takeWhile (fun c => c ≠ '>')
    srcBack run.reverse (r.drop run.length)
  else none

/-- Search with the HTML image regex: leftmost matching position. -/
def htmlSearch : Str → Option Str
  | [] => none
  | c :: rest =>
    match htmlImgAt (c :: rest) with
    | some u => some u
    | none => htmlSearch rest

/-- Lazy `(.*?)\)` of the markdown image regex: shortest group before a `)`. -/
def lazyParenGroup : Str → Option Str
  | [] => none
  | c :: rest =>
    if c = ')' then some []
    else
      match lazyParenGroup rest with
      | some g => some (c :: g)
      | none => none

/-- End-of-alt test of the markdown image regex: `\]\(` then the url group. -/
def mdEndHere (c : Char) (rest : Str) : Option Str :=
  if c = ']' then
    match rest with
    | c2 :: r2 => if c2 = '(' then lazyParenGroup r2 else none
    | [] => none
  else none

/-- Lazy `.*?` of the markdown image regex with backtracking over the alt text. -/
def mdAltScan : Str → Option Str
  | [] => none
  | c :: rest =>
    match mdEndHere c rest with
    | some g => some g
    | none => mdAltScan rest

/-- The markdown image regex `!\[.*?\]\((.*?)\)` tried at the start of `l`. -/
def mdImgAt : Str → Option Str
  | '!' :: '[' :: r => mdAltScan r
  | _ => none

/-- Search with the markdown image regex: leftmost matching position. -/
def mdSearch : Str → Option Str
  | [] => none
  | c :: rest =>
    match mdImgAt (c :: rest) with
    | some u => some u
    | none => mdSearch rest

/-- Image search of the parser: the HTML pattern first, then the markdown one. -/
def imgSearch (line : Str) : Option Str :=
  match htmlSearch line with
  | some u => some u
  | none => mdSearch line

/-- Substring test, modelling the Python in-operator on strings. -/
def containsSub (sub : Str) : Str → Bool
  | [] => sub.isPrefixOf ([] : Str)
  | c :: rest => sub.isPrefixOf (c :: rest) || containsSub sub rest

/-- Decorative-image denylist of the parser: the url contains the substring
`img_logo` or the substring `licensebuttons.net`. -/
def isDenylisted (u : Str) : Bool :=
  containsSub ("img_logo".data) u || containsSub ("licensebuttons.net".data) u

/-- Python replace of `###` by the empty string on a line: remove all
leftmost, non-overlapping occurrences of `###`. -/
def replace3 : Str → Str
  | '#' :: '#' :: '#' :: rest => replace3 rest
  | c :: rest => c :: replace3 rest
  | [] => []

/-- One iteration of the `for line in lines` loop of `parse_markdown`. -/
def processLine (st : PState) (raw : Str) : PState :=
  let line := pyStrip raw
  if line = [] then st
  else if ("## ".data).isPrefixOf line then
    match st.current with
    | some c => ⟨st.categories ++ [c], none⟩
    | none => st
  else if ("### ".data).isPrefixOf line then
    let cats :=
      match st.current with
      | some c => st.categories ++ [c]
      | none => st.categories
    ⟨cats, some ⟨pyStrip (replace3 line), []⟩⟩
  else
    match st.current with
    | none => st
    | some c =>
      match itemMatch line with
      | some (n, u, d) =>
        ⟨st.categories,
         some ⟨c.title, c.items ++ [Item.project (pyStrip n) (pyStrip u) (pyStrip d)]⟩⟩
      | none =>
        match imgSearch line with
        | some u =>
          if isDenylisted u then st
          else ⟨st.categories, some ⟨c.title, c.items ++ [Item.image u]⟩⟩
        | none => st

/-- Model of `parse_markdown`: fold the line processor over the lines and
append the still-open category at end of input. -/
def parse_markdown (content : Str) : List Category :=
  let st := (splitNl content).foldl processLine ⟨[], none⟩
  st.categories ++ st.current.toList

/-- The literal part of the issue-number regex `# 《HelloGitHub》第 (\d+) 期`. -/
def issueLit : Str := "# 《HelloGitHub》第 ".data

/-- The issue-number regex tried at the start of `l`: the literal part, then a
greedy `\d+`, then the literal ` 期`; returns group 1. -/
def matchIssueAt (l : Str) : Option Str :=
  if issueLit.isPrefixOf l then
    if ((l.drop issueLit.length).takeWhile Char.isDigit).isEmpty then none
    else if (" 期".data).isPrefixOf ((l.drop issueLit.length).dropWhile Char.isDigit) then
      some ((l.drop issueLit.length).takeWhile Char.isDigit)
    else none
  else none

/-- Model of `get_issue_number`: search of the issue-number regex
(leftmost matching position), `None` on no match. -/
def get_issue_number : Str → Option Str
  | [] => none
  | c :: rest =>
    match matchIssueAt (c :: rest) with
    | some ds => some ds
    | none => get_issue_number rest

/-- Tail `.md` of the file-name regex (`.` matches any character): holds when
the remainder starts with any character followed by `md`. -/
def fnTailOK : Str → Bool
  | _ :: 'm' :: 'd' :: _ => true
  | _ => false

/-- Greedy `\d+` of the file-name regex with backtracking: the longest digit
run whose continuation matches `.md` (first argument is the reversed digit
run still claimed by the group). -/
def fnShrink : Str → Str → Option Str
  | [], _ => none
  | d :: rds, rest =>
    if fnTailOK rest then some ((d :: rds).reverse)
    else fnShrink rds (d :: rest)

/-- The file-name regex `HelloGitHub(\d+).md` tried at the start of `l`. -/
def matchFnAt (l : Str) : Option Str :=
  if ("HelloGitHub".data).isPrefixOf l then
    let r := l.drop ("HelloGitHub".data).length
    let ds := r.takeWhile Char.isDigit
    if ds.isEmpty then none
    else fnShrink ds.reverse (r.dropWhile Char.isDigit)
  else none

/-- Search with the file-name regex over the base name. -/
def fnSearch : Str → Option Str
  | [] => none
  | c :: rest =>
    match matchFnAt (c :: rest) with
    | some ds => some ds
    | none => fnSearch rest

/-- Issue-number resolution of `main`: content regex, then file-name regex,
then the literal `Update`.  The regex groups are digit-class matches and hence
never empty, so Python's falsiness test on them is just a `None` test. -/
def resolveIssueNumber (content basename : Str) : Str :=
  match get_issue_number content with
  | some n => n
  | none =>
    match fnSearch basename with
    | some n => n
    | none => "Update".data

/-- The online-read URL template of `main`. -/
def onlineUrl (issueNum : Str) : Str :=
  "https://hellogithub.com/periodical/volume/".data ++ issueNum ++ "/".data

/-- Rendered card elements (the varying data of the JSON blocks built in
`main`: a `div`/`lark_md` text block, the intro action button, an `img`
block carrying the uploaded image key). -/
inductive Element where
  | textDiv (content : Str)
  | actionButton (text url : Str)
  | img (key : Str)
deriving DecidableEq

/-- The markdown text of a project block:
bold bracketed name, parenthesised url, newline, description. -/
def renderProject (name url desc : Str) : Element :=
  Element.textDiv ("**[".data ++ name ++ "](".data ++ url ++ ")**\n".data ++ desc)

/-- The element list built for one category by the loop in `main`: projects
always, images only when an access token is available and the upload
returned an image key. -/
def catElements (token : Option Str) (upload : Str → Option Str) :
    List Item → List Element
  | [] => []
  | Item.project n u d :: rest => renderProject n u d :: catElements token upload rest
  | Item.image u :: rest =>
    match token with
    | none => catElements token upload rest
    | some _ =>
      match upload u with
      | some key => Element.img key :: catElements token upload rest
      | none => catElements token upload rest

/-- Intro card title: the fixed phrase around the issue number. -/
def introTitle (issueNum : Str) : Str :=
  "HelloGitHub 第 ".data ++ issueNum ++ " 期发布".data

/-- Intro card body: the fixed summary line and the online-read button. -/
def introElements (issueNum : Str) : List Element :=
  [Element.textDiv ("**本期内容如下：**".data),
   Element.actionButton ("在线阅读全文".data) (onlineUrl issueNum)]

/-- Category card title: the literal `HG Vol.`, the issue number, a dash,
and the category title. -/
def catTitle (issueNum title : Str) : Str :=
  "HG Vol.".data ++ issueNum ++ " - ".data ++ title

/-- The ordered sequence of (title, elements) cards `main` sends after the
input file is read: nothing when the parse is empty, otherwise the intro
card followed by one card per category with a non-empty element list. -/
def mainMessages (issueNum : Str) (token : Option Str) (upload : Str → Option Str)
    (content : Str) : List (Str × List Element) :=
  if (parse_markdown content).isEmpty then []
  else
    (introTitle issueNum, introElements issueNum) ::
      (parse_markdown content).filterMap (fun c =>
        if (catElements token upload c.items).isEmpty then none
        else some (catTitle issueNum c.title, catElements token upload c.items))

/-- Result of one webhook post: the platform code, or a network error. -/
inductive NetResult where
  | ok (code : Int)
  | err (msg : Str)

/-- Outcome of one `send_feishu_card` call: the boolean it returns, the
webhook posts it made, and the lines it printed. -/
structure SendResult where
  success : Bool
  requests : List (Str × List Element)
  logs : List Str

/-- Python truthiness of the `FEISHU_WEBHOOK_URL` environment lookup. -/
def truthyOpt : Option Str → Bool
  | none => false
  | some s => !s.isEmpty

/-- Model of `send_feishu_card` with the webhook environment value and
the network sink made explicit: an unset or empty webhook URL prints a
diagnostic and returns `False` without posting. -/
def send_feishu_card (webhook : Option Str) (sink : Str × List Element → NetResult)
    (title : Str) (elements : List Element) : SendResult :=
  if truthyOpt webhook = false then
    { success := false
      requests := []
      logs := ["Error: FEISHU_WEBHOOK_URL environment variable not set.".data] }
  else
    match sink (title, elements) with
    | NetResult.ok code =>
      if code = 0 then
        { success := true, requests := [(title, elements)]
          logs := ["Successfully sent card: ".data ++ title] }
      else
        { success := false, requests := [(title, elements)]
          logs := ["Failed to send card ".data ++ title] }
    | NetResult.err e =>
      { success := false, requests := [(title, elements)]
        logs := ["Error sending request for ".data ++ title ++ ": ".data ++ e] }

/-- The dispatch loop of `main`: every rendered card is attempted in order,
regardless of the outcome of the previous sends. -/
def mainDispatch (webhook : Option Str) (sink : Str × List Element → NetResult)
    (issueNum : Str) (token : Option Str) (upload : Str → Option Str)
    (content : Str) : List SendResult :=
  (mainMessages issueNum token upload content).map fun m =>
    send_feishu_card webhook sink m.1 m.2

/-- A markdown document whose single category holds 51 catalogue items: one
more than the 50-element card cap the source itself mentions in a comment. -/
def content51 : Str :=
  "### T".data ++ (List.replicate 51 ("\n1、[P](u)：d".data)).flatten

end NotifyFeishu

namespace DailyHistory

/-- Digit body of a Python integer literal after the first digit: further
digits, with single underscores allowed only between digits. -/
def validRest : Str → Bool
  | [] => true
  | '_' :: c :: rest => c.isDigit && validRest rest
  | c :: rest => c.isDigit && validRest rest

/-- Digit body of a Python integer literal: at least one digit first. -/
def validBody : Str → Bool
  | [] => false
  | c :: rest => c.isDigit && validRest rest

/-- Numeric value of a digit string. -/
def digitsVal (l : Str) : Nat :=
  l.foldl (fun a c => a * 10 + (c.toNat - '0'.toNat)) 0

/-- Python `int(s)` on an already-stripped string (ASCII digits modelled):
optional sign, then digits with optional single underscores between digits;
`none` models a `ValueError`. -/
def pyParseInt (l : Str) : Option Int :=
  match l with
  | '+' :: rest =>
    if validBody rest then some (digitsVal (rest.filter (fun c => c ≠ '_'))) else none
  | '-' :: rest =>
    if validBody rest then some (-(digitsVal (rest.filter (fun c => c ≠ '_')) : Int)) else none
  | _ => if validBody l then some (digitsVal (l.filter (fun c => c ≠ '_'))) else none

/-- Model of `read_state` with the state-file contents made explicit (`none`
models a missing file): `1` when the file is missing or its stripped
contents fail to parse as an integer, the parsed value otherwise. -/
def read_state (stateFile : Option Str) : Int :=
  match stateFile with
  | none => 1
  | some content =>
    match pyParseInt (pyStrip content) with
    | some n => n
    | none => 1

/-- Decimal rendering of an integer, modelling Python `str(num)`. -/
def intToStr : Int → Str
  | Int.ofNat n => Nat.toDigits 10 n
  | Int.negSucc m => '-' :: Nat.toDigits 10 (m + 1)

/-- Python two-digit zero-padded formatting: pad to width two with a
leading zero. -/
def pad02 (s : Str) : Str := if s.length < 2 then '0' :: s else s

/-- Model of `get_content_file` with path existence made explicit: the
two-digit-padded name is tried first, then the unpadded one. -/
def get_content_file (pathExists : Str → Bool) (num : Int) : Option Str :=
  let pathPadded := "content/HelloGitHub".data ++ pad02 (intToStr num) ++ ".md".data
  let pathNormal := "content/HelloGitHub".data ++ intToStr num ++ ".md".data
  if pathExists pathPadded then some pathPadded
  else if pathExists pathNormal then some pathNormal
  else none

/-- Environment of the driver: state-file contents, path existence, whether
the notify script exists, and whether the notify subprocess succeeds. -/
structure DriverEnv where
  stateFile : Option Str
  pathExists : Str → Bool
  notifyScriptExists : Bool
  notifyOk : Bool

/-- Observable outcome of one driver run: the values written to the state
file (in order) and the exit code (`none` = normal return). -/
structure DriverOutcome where
  stateWrites : List Int
  exitCode : Option Nat
deriving DecidableEq

/-- Model of the driver main function: read the state, look up the content file,
run the notify subprocess, and only on its success write back the
incremented issue number; on failure exit 1 without writing. -/
def daily_main (env : DriverEnv) : DriverOutcome :=
  let current := read_state env.stateFile
  match get_content_file env.pathExists current with
  | none => ⟨[], none⟩
  | some _ =>
    if env.notifyScriptExists = false then ⟨[], some 1⟩
    else if env.notifyOk then ⟨[current + 1], none⟩
    else ⟨[], some 1⟩

/-- Concrete driver environment: issue 5, padded content file present,
notify script present, subprocess outcome a parameter. -/
def envC9 (ok : Bool) : DriverEnv :=
  { stateFile := some ("5".data)
    pathExists := fun p => p == ("content/HelloGitHub05.md".data)
    notifyScriptExists := true
    notifyOk := ok }

end DailyHistory

section StripLemmas

theorem dropWhile_idem (p : Char → Bool) (l : Str) :
    (l.dropWhile p).dropWhile p = l.dropWhile p := by
  induction l with
  | nil => simp
  | cons a t ih =>
    by_cases h : p a <;> simp [List.dropWhile_cons, h, ih]

theorem rstrip_idem (l : Str) : rstrip (rstrip l) = rstrip l := by
  unfold rstrip
  simp [dropWhile_idem]

theorem pyStrip_rstrip (l : Str) : pyStrip (rstrip l) = pyStrip l := by
  unfold pyStrip
  rw [rstrip_idem]

theorem lstrip_cons_of (c : Char) (l : Str) (hc : pyWs c = false) :
    lstrip (c :: l) = c :: l := by
  simp [lstrip, List.dropWhile_cons, hc]

theorem rstrip_append (zs : Str) (c : Char) (ys : Str) (hc : pyWs c = false) :
    rstrip (zs ++ c :: ys) = zs ++ c :: rstrip ys := by
  unfold rstrip
  have hrev : (zs ++ c :: ys).reverse = ys.reverse ++ c :: zs.reverse := by
    simp
  rw [hrev, List.dropWhile_append]
  by_cases h : (ys.reverse.dropWhile pyWs).isEmpty
  · have hys : (ys.reverse.dropWhile pyWs) = [] := by
      simpa [List.isEmpty_iff] using h
    simp [h, hys, List.dropWhile_cons, hc]
  · simp [h]

theorem pyStrip_headed (d : Char) (mid : Str) (c : Char) (ys : Str)
    (hd : pyWs d = false) (hc : pyWs c = false) :
    pyStrip ((d :: mid) ++ c :: ys) = (d :: mid) ++ c :: rstrip ys := by
  unfold pyStrip
  rw [rstrip_append _ _ _ hc]
  exact lstrip_cons_of d _ hd

theorem mem_dropWhile_of (p : Char → Bool) (c : Char) (hc : p c = false) :
    ∀ l : Str, c ∈ l → c ∈ l.dropWhile p := by
  intro l hl
  induction l with
  | nil => cases hl
  | cons a t ih =>
    by_cases ha : p a
    · rcases List.mem_cons.1 hl with rfl | hmem
      · rw [ha] at hc; cases hc
      · simpa [List.dropWhile_cons, ha] using ih hmem
    · simpa [List.dropWhile_cons, ha] using hl

theorem mem_pyStrip (c : Char) (hc : pyWs c = false) (l : Str) (hl : c ∈ l) :
    c ∈ pyStrip l := by
  unfold pyStrip rstrip lstrip
  apply mem_dropWhile_of _ _ hc
  rw [List.mem_reverse]
  apply mem_dropWhile_of _ _ hc
  rw [List.mem_reverse]
  exact hl

theorem digit_not_ws (c : Char) (h : c.isDigit = true) : pyWs c = false := by
  by_contra hw
  have hw' : c.isWhitespace = true := by
    simpa [pyWs] using hw
  have : ((c = ' ' ∨ c = '\t') ∨ c = '\x0d') ∨ c = '\n' := by
    simpa [Char.isWhitespace] using hw'
  rcases this with ((rfl | rfl) | rfl) | rfl <;> simp [Char.isDigit] at h

theorem digit_ne_hash (c : Char) (h : c.isDigit = true) : c ≠ '#' := by
  intro hc
  subst hc
  simp [Char.isDigit] at h

end StripLemmas

namespace NotifyFeishu

/-- C2 as stated is refuted by the single-line document `### A`: the parser
retains the category with an empty item list. -/
theorem C2_counterexample :
    parse_markdown ("### A".data) = [⟨"A".data, []⟩] ∧
    ¬ (∀ c ∈ parse_markdown ("### A".data), c.items ≠ []) := by
  decide

/-- C2 amended: the parser retains categories with empty item lists; the
drop of empty categories happens in the renderer instead — every dispatched
message (intro or category card) has a non-empty element list. -/
theorem C2_amended_nonempty (issueNum : Str) (token : Option Str)
    (upload : Str → Option Str) (content : Str) :
    ∀ m ∈ mainMessages issueNum token upload content, m.2 ≠ [] := by
  intro m hm
  unfold mainMessages at hm
  by_cases hp : (parse_markdown content).isEmpty
  · simp [hp] at hm
  · rw [if_neg (by simp [hp])] at hm
    rcases List.mem_cons.1 hm with rfl | hmem
    · simp [introElements]
    · obtain ⟨c, _, hc⟩ := List.mem_filterMap.1 hmem
      by_cases he : (catElements token upload c.items).isEmpty
      · simp [he] at hc
      · rw [if_neg (by simp [he])] at hc
        have h2 := Option.some.inj hc
        rw [← h2]
        simpa [List.isEmpty_iff] using he

/-- Witness for C2's amended theorem at a concrete run. -/
theorem C2_amended_nonempty_witness :
    (introTitle ("1".data), introElements ("1".data)).2 ≠ [] :=
  C2_amended_nonempty ("1".data) none (fun _ => none)
    ("### A\n1、[F](u)：d".data)
    (introTitle ("1".data), introElements ("1".data)) (by decide)

/-- C3: a level-2 heading line encountered while a category is open closes
and emits that category unchanged; and while no category is open, any line
that is not a level-3 heading (item and image lines included) leaves the
parser state unchanged, so such lines are captured by no category. -/
theorem C3_level2_closes :
    (∀ (cats : List Category) (c : Category) (line : Str),
      ("## ".data).isPrefixOf (pyStrip line) = true →
      processLine ⟨cats, some c⟩ line = ⟨cats ++ [c], none⟩) ∧
    (∀ (cats : List Category) (line : Str),
      ("### ".data).isPrefixOf (pyStrip line) = false →
      processLine ⟨cats, none⟩ line = ⟨cats, none⟩) := by
  constructor
  · intro cats c line h
    have hne : pyStrip line ≠ [] := by
      intro he
      rw [he] at h
      simp [List.isPrefixOf] at h
    simp [processLine, hne, h]
  · intro cats line h3
    by_cases hne : pyStrip line = []
    · simp [processLine, hne]
    · by_cases h2 : ("## ".data).isPrefixOf (pyStrip line)
      · simp [processLine, hne, h2]
      · simp [processLine, hne, h2, h3]

/-- Witness for C3 at concrete lines: a level-2 heading closing an open
category, and an item line being dropped while no category is open. -/
theorem C3_level2_closes_witness :
    processLine ⟨[], some ⟨"T".data, []⟩⟩ ("## 赞助".data) =
      ⟨[⟨"T".data, []⟩], none⟩ ∧
    processLine ⟨[], none⟩ ("1、[F](u)：d".data) = ⟨[], none⟩ :=
  ⟨C3_level2_closes.1 [] ⟨"T".data, []⟩ ("## 赞助".data) (by decide),
   C3_level2_closes.2 [] ("1、[F](u)：d".data) (by decide)⟩

/-- C6: with the webhook URL environment value unset (or empty), the send
operation posts nothing, prints a diagnostic, and returns `False`; and the
driver still attempts every rendered message regardless. -/
theorem C6_webhook_unset (webhook : Option Str)
    (sink : Str × List Element → NetResult) (title : Str)
    (elements : List Element) (h : truthyOpt webhook = false) :
    (send_feishu_card webhook sink title elements).success = false ∧
    (send_feishu_card webhook sink title elements).requests = [] ∧
    (send_feishu_card webhook sink title elements).logs ≠ [] ∧
    (∀ (issueNum : Str) (token : Option Str) (upload : Str → Option Str)
        (content : Str),
      (mainDispatch webhook sink issueNum token upload content).length =
        (mainMessages issueNum token upload content).length) := by
  refine ⟨?_, ?_, ?_, ?_⟩ <;>
    simp [send_feishu_card, h, mainDispatch]

/-- Witness for C6 with the webhook unset and a sink that would succeed. -/
theorem C6_webhook_unset_witness :
    (send_feishu_card none (fun _ => NetResult.ok 0) ("t".data) []).success = false ∧
    (send_feishu_card none (fun _ => NetResult.ok 0) ("t".data) []).requests = [] :=
  ⟨(C6_webhook_unset none (fun _ => NetResult.ok 0) ("t".data) [] rfl).1,
   (C6_webhook_unset none (fun _ => NetResult.ok 0) ("t".data) [] rfl).2.1⟩

theorem catMsgs_length (issueNum : Str) (token : Option Str)
    (upload : Str → Option Str) (l : List Category) :
    (l.filterMap (fun c =>
      if (catElements token upload c.items).isEmpty then none
      else some (catTitle issueNum c.title, catElements token upload c.items))).length
    = (l.filter (fun c => !(catElements token upload c.items).isEmpty)).length := by
  induction l with
  | nil => rfl
  | cons a t ih =>
    simp only [List.isEmpty_iff] at ih
    by_cases h : catElements token upload a.items = [] <;>
      simp [List.filterMap_cons, List.filter_cons, h, ih]

theorem catElements_none_images (upload : Str → Option Str) (items : List Item)
    (h : ∀ i ∈ items, ∃ u, i = Item.image u) :
    catElements none upload items = [] := by
  induction items with
  | nil => rfl
  | cons a t ih =>
    obtain ⟨u, rfl⟩ := h a (by simp)
    simpa [catElements] using ih (fun i hi => h i (by simp [hi]))

theorem headHG_ne (a b : Str) : ('H' :: 'G' :: a : Str) ≠ 'H' :: 'e' :: b := by
  intro h
  injection h with h1 h2
  injection h2 with h3 h4
  exact absurd h3 (by decide)

/-- C7: when the parse is non-empty, the intro card is the first message; the
number of messages is one plus the number of categories with a non-empty
rendered element list (a fully filtered-out category yields no message); no
later message carries the intro title; and a category whose items are all
images renders to an empty element list when no relay credential exists. -/
theorem C7_filtered_categories (issueNum : Str) (token : Option Str)
    (upload : Str → Option Str) (content : Str)
    (hne : (parse_markdown content).isEmpty = false) :
    (mainMessages issueNum token upload content).head? =
      some (introTitle issueNum, introElements issueNum) ∧
    (mainMessages issueNum token upload content).length =
      1 + ((parse_markdown content).filter
            (fun c => !(catElements token upload c.items).isEmpty)).length ∧
    (∀ m ∈ (mainMessages issueNum token upload content).tail,
      m.1 ≠ introTitle issueNum) ∧
    (∀ items : List Item, (∀ i ∈ items, ∃ u, i = Item.image u) →
      catElements none upload items = []) := by
  refine ⟨?_, ?_, ?_, fun items h => catElements_none_images upload items h⟩
  · simp [mainMessages, hne]
  · rw [mainMessages, if_neg (by simp [hne])]
    rw [List.length_cons, catMsgs_length]
    omega
  · intro m hm
    rw [mainMessages, if_neg (by simp [hne])] at hm
    rw [List.tail_cons] at hm
    obtain ⟨c, -, hc⟩ := List.mem_filterMap.1 hm
    by_cases hech : (catElements token upload c.items).isEmpty
    · simp [hech] at hc
    · rw [if_neg (by simp [hech])] at hc
      have h2 := Option.some.inj hc
      intro heq
      rw [← h2] at heq
      have heq2 : catTitle issueNum c.title = introTitle issueNum := by
        simpa using heq
      have hcatHG : catTitle issueNum c.title =
          'H' :: 'G' :: (((" Vol.".data ++ issueNum) ++ " - ".data) ++ c.title) := rfl
      have hintroHG : introTitle issueNum =
          'H' :: 'e' :: (("lloGitHub 第 ".data ++ issueNum) ++ " 期发布".data) := rfl
      rw [hcatHG, hintroHG] at heq2
      exact headHG_ne _ _ heq2

/-- Witness for C7: in a concrete run, the intro card leads the messages. -/
theorem C7_filtered_categories_witness :
    (mainMessages ("1".data) none (fun _ => none)
        ("### A\n1、[F](u)：d".data)).head? =
      some (introTitle ("1".data), introElements ("1".data)) :=
  (C7_filtered_categories ("1".data) none (fun _ => none)
    ("### A\n1、[F](u)：d".data) (by decide)).1

/-- C1 is refuted by the code: a parsed category of 51 items is rendered as
a single category card carrying all 51 elements (the message list is just
the intro card plus one oversized card); no splitting logic exists. -/
theorem C1_single_oversized_card :
    (mainMessages ("1".data) none (fun _ => none) content51).length = 2 ∧
    (mainMessages ("1".data) none (fun _ => none) content51).map
        (fun m => m.2.length) = [2, 51] := by
  decide

theorem mem_replace3 (c : Char) (hc : c ≠ '#') : ∀ l : Str, c ∈ l → c ∈ replace3 l := by
  intro l
  induction l using replace3.induct with
  | case1 rest ih =>
    intro hm
    simp only [replace3]
    simp only [List.mem_cons] at hm
    rcases hm with rfl | rfl | rfl | hm
    · exact absurd rfl hc
    · exact absurd rfl hc
    · exact absurd rfl hc
    · exact ih hm
  | case2 a rest hne ih =>
    intro hm
    have hstep : replace3 (a :: rest) = a :: replace3 rest := by
      rw [replace3.eq_def]
      split
      · rename_i rest2 heq
        injection heq with h1 h2
        exact (hne rest2 h1 h2).elim
      · rename_i a2 rest2 hne2 heq
        injection heq with h1 h2
        rw [h1, h2]
      · rename_i heq
        cases heq
    rw [hstep]
    rcases List.mem_cons.1 hm with rfl | hm
    · exact List.mem_cons_self _ _
    · exact List.mem_cons_of_mem _ (ih hm)
  | case3 => intro hm; cases hm

/-- C8 counterexample: the heading line `### ###` yields a category whose
title is empty after trimming, and the parser emits it. -/
theorem C8_counterexample :
    parse_markdown ("### ###".data) = [⟨[], []⟩] ∧
    ¬ (∀ c ∈ parse_markdown ("### ###".data), c.title ≠ []) := by
  decide

theorem titles_step (st : PState) (line : Str)
    (hcond : ("### ".data).isPrefixOf (pyStrip line) = true →
      ∃ ch ∈ line, ch ≠ '#' ∧ pyWs ch = false)
    (h1 : ∀ c ∈ st.categories, c.title ≠ [])
    (h2 : ∀ c, st.current = some c → c.title ≠ []) :
    (∀ c ∈ (processLine st line).categories, c.title ≠ []) ∧
    (∀ c, (processLine st line).current = some c → c.title ≠ []) := by
  by_cases hne : pyStrip line = []
  · have heq : processLine st line = st := by simp [processLine, hne]
    rw [heq]
    exact ⟨h1, h2⟩
  by_cases hl2 : ("## ".data).isPrefixOf (pyStrip line) = true
  · cases hcur : st.current with
    | none =>
      have heq : processLine st line = st := by simp [processLine, hne, hl2, hcur]
      rw [heq]
      exact ⟨h1, h2⟩
    | some c0 =>
      have heq : processLine st line = ⟨st.categories ++ [c0], none⟩ := by
        simp [processLine, hne, hl2, hcur]
      rw [heq]
      constructor
      · intro c hcm
        rcases List.mem_append.1 hcm with h | h
        · exact h1 c h
        · rw [List.mem_singleton] at h
          subst h
          exact h2 c hcur
      · intro c hcc
        cases hcc
  by_cases hl3 : ("### ".data).isPrefixOf (pyStrip line) = true
  · obtain ⟨ch, hchm, hchh, hchw⟩ := hcond hl3
    have htitle : pyStrip (replace3 (pyStrip line)) ≠ [] :=
      List.ne_nil_of_mem (mem_pyStrip ch hchw _
        (mem_replace3 ch hchh _ (mem_pyStrip ch hchw _ hchm)))
    cases hcur : st.current with
    | none =>
      have heq : processLine st line =
          ⟨st.categories, some ⟨pyStrip (replace3 (pyStrip line)), []⟩⟩ := by
        simp [processLine, hne, hl2, hl3, hcur]
      rw [heq]
      refine ⟨h1, ?_⟩
      intro c hcc
      cases Option.some.inj hcc
      exact htitle
    | some c0 =>
      have heq : processLine st line =
          ⟨st.categories ++ [c0], some ⟨pyStrip (replace3 (pyStrip line)), []⟩⟩ := by
        simp [processLine, hne, hl2, hl3, hcur]
      rw [heq]
      constructor
      · intro c hcm
        rcases List.mem_append.1 hcm with h | h
        · exact h1 c h
        · rw [List.mem_singleton] at h
          subst h
          exact h2 c hcur
      · intro c hcc
        cases Option.some.inj hcc
        exact htitle
  · cases hcur : st.current with
    | none =>
      have heq : processLine st line = st := by simp [processLine, hne, hl2, hl3, hcur]
      rw [heq]
      exact ⟨h1, h2⟩
    | some c0 =>
      have ht0 := h2 c0 hcur
      cases him : itemMatch (pyStrip line) with
      | some t3 =>
        obtain ⟨n, u, d⟩ := t3
        have heq : processLine st line = ⟨st.categories,
            some ⟨c0.title, c0.items ++
              [Item.project (pyStrip n) (pyStrip u) (pyStrip d)]⟩⟩ := by
          simp [processLine, hne, hl2, hl3, hcur, him]
        rw [heq]
        refine ⟨h1, ?_⟩
        intro c hcc
        cases Option.some.inj hcc
        exact ht0
      | none =>
        cases hims : imgSearch (pyStrip line) with
        | none =>
          have heq : processLine st line = st := by
            simp [processLine, hne, hl2, hl3, hcur, him, hims]
          rw [heq]
          exact ⟨h1, h2⟩
        | some u =>
          by_cases hden : isDenylisted u = true
          · have heq : processLine st line = st := by
              simp [processLine, hne, hl2, hl3, hcur, him, hims, hden]
            rw [heq]
            exact ⟨h1, h2⟩
          · have heq : processLine st line = ⟨st.categories,
                some ⟨c0.title, c0.items ++ [Item.image u]⟩⟩ := by
              simp [processLine, hne, hl2, hl3, hcur, him, hims, hden]
            rw [heq]
            refine ⟨h1, ?_⟩
            intro c hcc
            cases Option.some.inj hcc
            exact ht0

theorem titles_fold (lines : List Str)
    (hcond : ∀ l ∈ lines, ("### ".data).isPrefixOf (pyStrip l) = true →
      ∃ ch ∈ l, ch ≠ '#' ∧ pyWs ch = false) :
    ∀ st : PState,
      (∀ c ∈ st.categories, c.title ≠ []) →
      (∀ c, st.current = some c → c.title ≠ []) →
      (∀ c ∈ (lines.foldl processLine st).categories, c.title ≠ []) ∧
      (∀ c, (lines.foldl processLine st).current = some c → c.title ≠ []) := by
  induction lines with
  | nil =>
    intro st h1 h2
    exact ⟨h1, h2⟩
  | cons l rest ih =>
    intro st h1 h2
    obtain ⟨s1, s2⟩ := titles_step st l (hcond l (by simp)) h1 h2
    exact ih (fun x hx => hcond x (by simp [hx])) (processLine st l) s1 s2

/-- C8 amended: every category produced by `parse_markdown` has a non-empty
trimmed title, provided every level-3 heading line of the document contains
some character besides `#` and whitespace (a heading such as `### ###` is
the only way to get an empty title, since the replace of `###` can erase a
title made purely of hash runs). -/
theorem C8_amended_titles (content : Str)
    (hcond : ∀ l ∈ splitNl content, ("### ".data).isPrefixOf (pyStrip l) = true →
      ∃ ch ∈ l, ch ≠ '#' ∧ pyWs ch = false) :
    ∀ cat ∈ parse_markdown content, cat.title ≠ [] := by
  intro cat hcat
  obtain ⟨hA, hB⟩ := titles_fold (splitNl content) hcond ⟨[], none⟩
    (by intro c hc; cases hc) (by intro c hc; cases hc)
  rw [parse_markdown] at hcat
  rcases List.mem_append.1 hcat with h | h
  · exact hA cat h
  · cases hcur : ((splitNl content).foldl processLine ⟨[], none⟩).current with
    | none =>
      rw [hcur] at h
      cases h
    | some c =>
      rw [hcur] at h
      rw [Option.toList_some, List.mem_singleton] at h
      subst h
      exact hB cat hcur

/-- Witness for C8's amended theorem on a concrete document. -/
theorem C8_amended_titles_witness :
    (⟨"A".data, []⟩ : Category).title ≠ [] :=
  C8_amended_titles ("### A".data) (by decide) ⟨"A".data, []⟩ (by decide)

theorem takeWhile_all_append (p : Char → Bool) (ds : Str) (c : Char) (t : Str)
    (hds : ∀ d ∈ ds, p d = true) (hc : p c = false) :
    (ds ++ c :: t).takeWhile p = ds := by
  rw [List.takeWhile_append_of_pos hds]
  simp [List.takeWhile_cons, hc]

theorem dropWhile_all_append (p : Char → Bool) (ds : Str) (c : Char) (t : Str)
    (hds : ∀ d ∈ ds, p d = true) (hc : p c = false) :
    (ds ++ c :: t).dropWhile p = c :: t := by
  rw [List.dropWhile_append_of_pos hds]
  simp [List.dropWhile_cons, hc]

theorem matchUrlDesc_complete (url : Str) (hurl : ∀ ch ∈ url, ch ≠ ')')
    (colon : Char) (hcolon : colon = '：' ∨ colon = ':') (desc : Str) :
    matchUrlDesc (url ++ ')' :: colon :: desc) = some (url, desc) := by
  induction url with
  | nil => simp [matchUrlDesc, urlEndHere, hcolon]
  | cons a t ih =>
    have ha : a ≠ ')' := hurl a (List.mem_cons_self _ _)
    have iht := ih (fun ch hch => hurl ch (List.mem_cons_of_mem _ hch))
    simp [matchUrlDesc, urlEndHere, ha, iht]

theorem matchNameRest_complete (name : Str) (hname : ∀ ch ∈ name, ch ≠ ']')
    (url : Str) (hurl : ∀ ch ∈ url, ch ≠ ')')
    (colon : Char) (hcolon : colon = '：' ∨ colon = ':') (desc : Str) :
    matchNameRest (name ++ ']' :: '(' :: (url ++ ')' :: colon :: desc)) =
      some (name, url, desc) := by
  induction name with
  | nil => simp [matchNameRest, nameEndHere, matchUrlDesc_complete url hurl colon hcolon desc]
  | cons a t ih =>
    have ha : a ≠ ']' := hname a (List.mem_cons_self _ _)
    have iht := ih (fun ch hch => hname ch (List.mem_cons_of_mem _ hch))
    simp [matchNameRest, nameEndHere, ha, iht]

theorem itemMatch_complete (ds : Str) (hds : ds ≠ [])
    (hdig : ∀ d ∈ ds, d.isDigit = true)
    (name : Str) (hname : ∀ ch ∈ name, ch ≠ ']')
    (url : Str) (hurl : ∀ ch ∈ url, ch ≠ ')')
    (colon : Char) (hcolon : colon = '：' ∨ colon = ':') (desc : Str) :
    itemMatch (ds ++ '、' :: '[' :: (name ++ ']' :: '(' :: (url ++ ')' :: colon :: desc))) =
      some (name, url, desc) := by
  obtain ⟨d, ds', rfl⟩ := List.exists_cons_of_ne_nil hds
  unfold itemMatch
  rw [takeWhile_all_append _ _ _ _ hdig (by decide),
    dropWhile_all_append _ _ _ _ hdig (by decide)]
  exact matchNameRest_complete name hname url hurl colon hcolon desc

/-- C4: a line of the shape `N、[Name](URL)：Desc` (fullwidth or plain colon)
processed while a category is open appends one project item whose name, url
and description are the respective groups with surrounding whitespace
trimmed.  The hypotheses keep the groups unambiguous for the lazy regex:
the name contains no `]`, the url no `)`. -/
theorem C4_item_line (cats : List Category) (c : Category)
    (ds name url desc : Str) (colon : Char)
    (hds : ds ≠ []) (hdig : ∀ d ∈ ds, d.isDigit = true)
    (hname : ∀ ch ∈ name, ch ≠ ']') (hurl : ∀ ch ∈ url, ch ≠ ')')
    (hcolon : colon = '：' ∨ colon = ':') :
    processLine ⟨cats, some c⟩
        (ds ++ '、' :: '[' :: (name ++ ']' :: '(' :: (url ++ ')' :: colon :: desc)))
      = ⟨cats, some ⟨c.title,
          c.items ++ [Item.project (pyStrip name) (pyStrip url) (pyStrip desc)]⟩⟩ := by
  obtain ⟨d, ds', rfl⟩ := List.exists_cons_of_ne_nil hds
  have hd : d.isDigit = true := hdig d (List.mem_cons_self _ _)
  have hdw : pyWs d = false := digit_not_ws d hd
  have hdh : d ≠ '#' := digit_ne_hash d hd
  have hcw : pyWs colon = false := by
    rcases hcolon with rfl | rfl <;> decide
  have hstrip : pyStrip (d :: (ds' ++ '、' :: '[' ::
        (name ++ ']' :: '(' :: (url ++ ')' :: colon :: desc))))
      = d :: (ds' ++ '、' :: '[' ::
          (name ++ ']' :: '(' :: (url ++ ')' :: colon :: rstrip desc))) := by
    have h := pyStrip_headed d
      (ds' ++ '、' :: '[' :: (name ++ ']' :: '(' :: (url ++ [')'])))
      colon desc hdw hcw
    simpa using h
  have hitem : itemMatch (d :: (ds' ++ '、' :: '[' ::
        (name ++ ']' :: '(' :: (url ++ ')' :: colon :: rstrip desc))))
      = some (name, url, rstrip desc) := by
    have h := itemMatch_complete (d :: ds') (by simp) hdig name hname url hurl
      colon hcolon (rstrip desc)
    simpa using h
  have hp2 : (("## ".data).isPrefixOf (d :: (ds' ++ '、' :: '[' ::
        (name ++ ']' :: '(' :: (url ++ ')' :: colon :: rstrip desc))))) = false := by
    simp [List.isPrefixOf, beq_iff_eq]
    intro h
    exact absurd h.symm hdh
  have hp3 : (("### ".data).isPrefixOf (d :: (ds' ++ '、' :: '[' ::
        (name ++ ']' :: '(' :: (url ++ ')' :: colon :: rstrip desc))))) = false := by
    simp [List.isPrefixOf, beq_iff_eq]
    intro h
    exact absurd h.symm hdh
  simp only [List.cons_append]
  simp only [processLine, hstrip]
  rw [if_neg (by simp),
    if_neg (fun h => Bool.false_ne_true (hp2 ▸ h)),
    if_neg (fun h => Bool.false_ne_true (hp3 ▸ h))]
  rw [hitem]
  simp [pyStrip_rstrip]

/-- Witness for C4 on a concrete item line with padded fields. -/
theorem C4_item_line_witness :
    processLine ⟨[], some ⟨"T".data, []⟩⟩
        ("1".data ++ '、' :: '[' :: (" Foo ".data ++ ']' :: '(' ::
          (" http://x ".data ++ ')' :: '：' :: " bar ".data)))
      = ⟨[], some ⟨"T".data,
          [Item.project (pyStrip (" Foo ".data)) (pyStrip (" http://x ".data))
            (pyStrip (" bar ".data))]⟩⟩ :=
  C4_item_line [] ⟨"T".data, []⟩ ("1".data) (" Foo ".data) (" http://x ".data)
    (" bar ".data) '：' (by decide) (by decide) (by decide) (by decide) (by decide)

theorem matchIssueAt_skip (c : Char) (hc : c ≠ '#') (l : Str) :
    matchIssueAt (c :: l) = none := by
  have hdef : issueLit = '#' :: " 《HelloGitHub》第 ".data := rfl
  have hpre : issueLit.isPrefixOf (c :: l) = false := by
    rw [hdef]
    simp [List.isPrefixOf, beq_iff_eq]
    intro h
    exact absurd h.symm hc
  unfold matchIssueAt
  rw [if_neg (fun h => Bool.false_ne_true (hpre ▸ h))]

theorem get_issue_number_skip (pre : Str) (hpre : ∀ ch ∈ pre, ch ≠ '#') (s : Str) :
    get_issue_number (pre ++ s) = get_issue_number s := by
  induction pre with
  | nil => rfl
  | cons a t ih =>
    have ha : a ≠ '#' := hpre a (List.mem_cons_self _ _)
    have iht := ih (fun ch hch => hpre ch (List.mem_cons_of_mem _ hch))
    rw [List.cons_append]
    simp only [get_issue_number]
    rw [matchIssueAt_skip a ha (t ++ s), iht]

theorem isPrefixOf_self_append (l x : Str) : l.isPrefixOf (l ++ x) = true := by
  induction l with
  | nil => simp [List.isPrefixOf]
  | cons a t ih => simp [List.isPrefixOf, ih]

theorem matchIssueAt_complete (ds : Str) (hds : ds ≠ [])
    (hdig : ∀ d ∈ ds, d.isDigit = true) (post : Str) :
    matchIssueAt (issueLit ++ (ds ++ ' ' :: '期' :: post)) = some ds := by
  unfold matchIssueAt
  rw [if_pos (isPrefixOf_self_append issueLit _)]
  rw [List.drop_left]
  rw [takeWhile_all_append Char.isDigit ds ' ' ('期' :: post) hdig (by decide),
    dropWhile_all_append Char.isDigit ds ' ' ('期' :: post) hdig (by decide)]
  obtain ⟨d0, ds0, rfl⟩ := List.exists_cons_of_ne_nil hds
  simp [List.isPrefixOf]

/-- C5: issue-number resolution follows the fallback chain.  If the document
contains the issue heading (anywhere after a `#`-free prefix), the identity
is its digit group and the online-read URL is the canonical volume path for
it; otherwise the file-name digits are used; otherwise the literal
`Update`.  The function is total, so the pipeline never aborts for a
missing issue number. -/
theorem C5_issue_fallback :
    (∀ pre ds post bn : Str, (∀ ch ∈ pre, ch ≠ '#') → ds ≠ [] →
      (∀ d ∈ ds, d.isDigit = true) →
      resolveIssueNumber (pre ++ issueLit ++ ds ++ ' ' :: '期' :: post) bn = ds ∧
      onlineUrl (resolveIssueNumber (pre ++ issueLit ++ ds ++ ' ' :: '期' :: post) bn) =
        "https://hellogithub.com/periodical/volume/".data ++ ds ++ "/".data) ∧
    (∀ (content bn n : Str), get_issue_number content = none → fnSearch bn = some n →
      resolveIssueNumber content bn = n) ∧
    (∀ content bn : Str, get_issue_number content = none → fnSearch bn = none →
      resolveIssueNumber content bn = "Update".data) := by
  refine ⟨?_, ?_, ?_⟩
  · intro pre ds post bn hpre hds hdig
    have h1 : pre ++ issueLit ++ ds ++ ' ' :: '期' :: post =
        pre ++ (issueLit ++ (ds ++ ' ' :: '期' :: post)) := by
      simp [List.append_assoc]
    have h2 : issueLit ++ (ds ++ ' ' :: '期' :: post) =
        '#' :: (" 《HelloGitHub》第 ".data ++ (ds ++ ' ' :: '期' :: post)) := rfl
    have hg : get_issue_number (pre ++ (issueLit ++ (ds ++ ' ' :: '期' :: post))) = some ds := by
      rw [get_issue_number_skip pre hpre, h2]
      simp only [get_issue_number]
      rw [← h2, matchIssueAt_complete ds hds hdig post]
    constructor
    · simp [resolveIssueNumber, h1, hg]
    · simp [resolveIssueNumber, h1, hg, onlineUrl]
  · intro content bn n h1 h2
    simp [resolveIssueNumber, h1, h2]
  · intro content bn h1 h2
    simp [resolveIssueNumber, h1, h2]

/-- Witness for C5: the spec's scenario 2 (issue 42) and the placeholder
fallback, at concrete inputs. -/
theorem C5_issue_fallback_witness :
    resolveIssueNumber ([] ++ issueLit ++ "42".data ++ ' ' :: '期' :: []) [] = "42".data ∧
    resolveIssueNumber ("no".data) ("foo.md".data) = "Update".data :=
  ⟨(C5_issue_fallback.1 [] ("42".data) [] [] (by decide) (by decide) (by decide)).1,
   C5_issue_fallback.2.2 ("no".data) ("foo.md".data) (by decide) (by decide)⟩

end NotifyFeishu

namespace DailyHistory

/-- C9: when the content file is found and the notify script exists, the
driver writes back exactly the incremented issue number only when the
subprocess succeeds; on subprocess failure nothing is written and the
driver exits with code 1. -/
theorem C9_state_update (env : DriverEnv)
    (hfile : (get_content_file env.pathExists (read_state env.stateFile)).isSome = true)
    (hscript : env.notifyScriptExists = true) :
    (env.notifyOk = true →
      (daily_main env).stateWrites = [read_state env.stateFile + 1] ∧
      (daily_main env).exitCode = none) ∧
    (env.notifyOk = false →
      (daily_main env).stateWrites = [] ∧
      (daily_main env).exitCode = some 1) := by
  cases hg : get_content_file env.pathExists (read_state env.stateFile) with
  | none => rw [hg] at hfile; cases hfile
  | some p =>
    constructor <;> intro hok <;> simp [daily_main, hg, hscript, hok]

/-- Witness for C9: on success the state advances 5 → 6; on failure nothing
is written and the driver exits 1. -/
theorem C9_state_update_witness :
    ((daily_main (envC9 true)).stateWrites = [read_state (some ("5".data)) + 1] ∧
      (daily_main (envC9 true)).exitCode = none) ∧
    ((daily_main (envC9 false)).stateWrites = [] ∧
      (daily_main (envC9 false)).exitCode = some 1) :=
  ⟨(C9_state_update (envC9 true) (by decide) (by decide)).1 rfl,
   (C9_state_update (envC9 false) (by decide) (by decide)).2 rfl⟩

/-- C10: `read_state` returns 1 when the state file is missing or its
stripped contents do not parse as an integer, and the parsed integer
otherwise; it is a total function (never raises). -/
theorem C10_read_state :
    read_state none = 1 ∧
    (∀ s : Str, pyParseInt (pyStrip s) = none → read_state (some s) = 1) ∧
    (∀ (s : Str) (n : Int), pyParseInt (pyStrip s) = some n → read_state (some s) = n) := by
  refine ⟨rfl, ?_, ?_⟩ <;> intro s
  · intro h
    simp [read_state, h]
  · intro n h
    simp [read_state, h]

/-- Witness for C10 on a parseable and an unparseable state file. -/
theorem C10_read_state_witness :
    read_state (some (" 42 ".data)) = 42 ∧ read_state (some ("a1".data)) = 1 :=
  ⟨C10_read_state.2.2 (" 42 ".data) 42 (by decide),
   C10_read_state.2.1 ("a1".data) (by decide)⟩

end DailyHistory
